import Mathlib

/-!
Verification of the Encore runtime-configuration bootstrap
(`runtime/appruntime/exported/config/parse.go`): a shallow embedding of
`ParseRuntime` and `ParseStatic` together with models of the Go standard
library pieces they call (`encoding/base64`, `encoding/json`, `net/url`).

Bytes are modelled as `Nat` values below 256; strings of the host language
are Lean `String`s (the inputs relevant here are ASCII, where Go's UTF-8
bytes and Lean's characters coincide).
-/

namespace EncoreConfig

/-! ### Model of Go `encoding/base64`

Go's decoder processes the input in quanta of four base64 digits, skipping
`\n` and `\r` wherever they occur.  `StdEncoding` uses the alphabet
`A-Za-z0-9+/` with mandatory `=` padding; `RawURLEncoding` uses
`A-Za-z0-9-_` with no padding, so a final quantum of two or three digits is
allowed.  Decoding is non-strict: trailing bits of a partial quantum are not
required to be zero, matching Go's default. -/

/-- The standard base64 alphabet (Go `base64.StdEncoding`). -/
def stdAlphabet : List Char :=
  "ABCDEFGHIJKLMNOPQRSTUVWXYZabcdefghijklmnopqrstuvwxyz0123456789+/".toList

/-- The URL-safe base64 alphabet (Go `base64.RawURLEncoding`). -/
def urlAlphabet : List Char :=
  "ABCDEFGHIJKLMNOPQRSTUVWXYZabcdefghijklmnopqrstuvwxyz0123456789-_".toList

/-- Index of a character in an alphabet, `none` when absent
(Go's `decodeMap` value `0xff`). -/
def b64Index (alpha : List Char) (c : Char) : Option Nat :=
  let i := alpha.indexOf c
  if i < alpha.length then some i else none

/-- Characters Go's base64 decoder skips anywhere in the input. -/
def isB64Skip (c : Char) : Bool := c = '\n' || c = '\r'

/-- Decode a base64 digit stream (newlines already removed) in quanta of
four digits.  `pad` selects `=`-padded decoding (StdEncoding) versus
unpadded decoding (RawURLEncoding).  Mirrors Go's `decodeQuantum`: a final
quantum of one digit is always corrupt; of two or three digits it is corrupt
exactly when padding is required; `=` may only appear as `xx==` or `xxx=`
at the very end of a padded input. -/
def decodeB64 (pad : Bool) (alpha : List Char) : List Char → Option (List Nat)
  | [] => some []
  | [c0, c1] =>
    if pad then none else
    match b64Index alpha c0, b64Index alpha c1 with
    | some d0, some d1 => some [d0 * 4 + d1 / 16]
    | _, _ => none
  | [c0, c1, c2] =>
    if pad then none else
    match b64Index alpha c0, b64Index alpha c1, b64Index alpha c2 with
    | some d0, some d1, some d2 =>
      some [d0 * 4 + d1 / 16, d1 % 16 * 16 + d2 / 4]
    | _, _, _ => none
  | c0 :: c1 :: c2 :: c3 :: rest =>
    match b64Index alpha c0, b64Index alpha c1 with
    | some d0, some d1 =>
      if c2 = '=' then
        if pad ∧ c3 = '=' ∧ rest = [] then some [d0 * 4 + d1 / 16] else none
      else
        match b64Index alpha c2 with
        | some d2 =>
          if c3 = '=' then
            if pad ∧ rest = [] then some [d0 * 4 + d1 / 16, d1 % 16 * 16 + d2 / 4]
            else none
          else
            match b64Index alpha c3 with
            | some d3 =>
              (decodeB64 pad alpha rest).map fun bs =>
                (d0 * 4 + d1 / 16) :: (d1 % 16 * 16 + d2 / 4) :: (d2 % 4 * 64 + d3) :: bs
            | none => none
        | none => none
    | _, _ => none
  | [_] => none

/-- Go `base64.StdEncoding.DecodeString`. -/
def stdDecodeStr (s : String) : Option (List Nat) :=
  decodeB64 true stdAlphabet (s.toList.filter fun c => !isB64Skip c)

/-- Go `base64.RawURLEncoding.DecodeString`. -/
def rawUrlDecodeStr (s : String) : Option (List Nat) :=
  decodeB64 false urlAlphabet (s.toList.filter fun c => !isB64Skip c)

/-- Encode bytes in base64 over an alphabet, with or without `=` padding.
Mirrors Go's `Encoding.Encode`: each group of three bytes becomes four
digits; a final group of one byte becomes two digits (plus `==` when
padded), of two bytes three digits (plus `=` when padded). -/
def encodeB64 (pad : Bool) (alpha : List Char) : List Nat → List Char
  | [] => []
  | [x] =>
    alpha.getD (x / 4) '?' :: alpha.getD (x % 4 * 16) '?' ::
      (if pad then ['=', '='] else [])
  | [x, y] =>
    alpha.getD (x / 4) '?' :: alpha.getD (x % 4 * 16 + y / 16) '?' ::
      alpha.getD (y % 16 * 4) '?' :: (if pad then ['='] else [])
  | x :: y :: z :: rest =>
    alpha.getD (x / 4) '?' :: alpha.getD (x % 4 * 16 + y / 16) '?' ::
      alpha.getD (y % 16 * 4 + z / 64) '?' :: alpha.getD (z % 64) '?' ::
      encodeB64 pad alpha rest

/-- Go `base64.StdEncoding.EncodeToString`. -/
def stdEncodeStr (b : List Nat) : String :=
  String.mk (encodeB64 true stdAlphabet b)

/-- Go `base64.RawURLEncoding.EncodeToString`. -/
def rawUrlEncodeStr (b : List Nat) : String :=
  String.mk (encodeB64 false urlAlphabet b)

example : stdDecodeStr "e30=" = some [123, 125] := by decide
example : stdEncodeStr [123, 125] = "e30=" := by decide
example : rawUrlDecodeStr "e30" = some [123, 125] := by decide
example : stdDecodeStr "e30" = none := by decide
example : rawUrlDecodeStr "e30=" = none := by decide
example : stdDecodeStr "_w" = none := by decide
example : rawUrlDecodeStr "_w" = some [255] := by decide
example : stdDecodeStr "e3\n0=" = some [123, 125] := by decide

/-! ### Model of Go `encoding/json` restricted to the config shapes

`json.Unmarshal` is modelled only on flat JSON objects whose values are
strings — the shape relevant to the fields of these configs.  Whitespace is
skipped as in Go; raw control characters inside strings are rejected as in
Go; the escapes handled are the single-character ones.  Trailing non-space
input after the top-level value is an error, matching `json.Unmarshal`.
Field names match Go's struct-field resolution: an exact or
case-insensitive match against the field name, later duplicates
overwriting earlier ones. -/

/-- JSON whitespace characters. -/
def isJsonWs (c : Char) : Bool := c = ' ' || c = '\t' || c = '\n' || c = '\r'

/-- Drop leading JSON whitespace. -/
def skipJsonWs : List Char → List Char
  | [] => []
  | c :: rest => if isJsonWs c then skipJsonWs rest else c :: rest

/-- Single-character JSON string escapes. -/
def jsonUnescape (c : Char) : Option Char :=
  if c = '"' then some '"'
  else if c = '\\' then some '\\'
  else if c = '/' then some '/'
  else if c = 'b' then some (Char.ofNat 8)
  else if c = 'f' then some (Char.ofNat 12)
  else if c = 'n' then some '\n'
  else if c = 'r' then some '\r'
  else if c = 't' then some '\t'
  else none

/-- Parse the remainder of a JSON string (the opening quote already
consumed), returning its contents and the rest of the input. -/
def parseJsonStringRest : List Char → Option (List Char × List Char)
  | [] => none
  | '"' :: rest => some ([], rest)
  | '\\' :: e :: rest =>
    match jsonUnescape e with
    | some c =>
      match parseJsonStringRest rest with
      | some (s, r) => some (c :: s, r)
      | none => none
    | none => none
  | c :: rest =>
    if c.toNat < 32 then none
    else
      match parseJsonStringRest rest with
      | some (s, r) => some (c :: s, r)
      | none => none

/-- Parse one or more `"key" : "value"` members followed by `,` (more
members) or the closing brace.  The fuel argument only bounds recursion
depth; each recursive call consumes at least one input character, so any
fuel above the input length is enough. -/
def parseJsonMembers : Nat → List Char → Option (List (String × String) × List Char)
  | 0, _ => none
  | fuel + 1, l =>
    match skipJsonWs l with
    | '"' :: r0 =>
      match parseJsonStringRest r0 with
      | some (k, r1) =>
        match skipJsonWs r1 with
        | ':' :: r2 =>
          match skipJsonWs r2 with
          | '"' :: r3 =>
            match parseJsonStringRest r3 with
            | some (v, r4) =>
              match skipJsonWs r4 with
              | ',' :: r5 =>
                match parseJsonMembers fuel r5 with
                | some (ms, r6) => some ((String.mk k, String.mk v) :: ms, r6)
                | none => none
              | '\x7d' :: r5 => some ([(String.mk k, String.mk v)], r5)
              | _ => none
            | none => none
          | _ => none
        | _ => none
      | none => none
    | _ => none

/-- Parse a whole input as one flat JSON object of string fields, with
nothing but whitespace after it. -/
def parseJsonObj (l : List Char) : Option (List (String × String)) :=
  match skipJsonWs l with
  | '\x7b' :: rest =>
    match skipJsonWs rest with
    | '\x7d' :: r2 => if skipJsonWs r2 = [] then some [] else none
    | _ =>
      match parseJsonMembers (l.length + 1) rest with
      | some (ms, r) => if skipJsonWs r = [] then some ms else none
      | none => none
  | _ => none

/-- Modelled from the spec: the declaration of the `Runtime` struct is not
among the examined sources (only `parse.go` is); per the spec, a
RuntimeConfig contains at least an API base URL and a deploy identifier,
both strings. -/
structure Runtime where
  APIBaseURL : String
  DeployID : String
deriving DecidableEq, Repr

/-- Modelled from the spec: the declaration of the `Static` struct is not
among the examined sources; per the spec it is a structured value of
build-time flags/metadata, modelled as its decoded field list. -/
structure Static where
  fields : List (String × String)
deriving DecidableEq, Repr

/-- ASCII lower-casing, as Go's case-insensitive field matching uses. -/
def lowerChar (c : Char) : Char :=
  if 65 ≤ c.toNat ∧ c.toNat ≤ 90 then Char.ofNat (c.toNat + 32) else c

/-- Case-insensitive match of a JSON key against a struct field name
(given lower-case). -/
def keyMatches (field : String) (k : String) : Bool :=
  k.toList.map lowerChar == field.toList

/-- Assign one decoded JSON member to the matching `Runtime` field
(unknown keys are ignored, as `json.Unmarshal` does). -/
def setRuntimeField (cfg : Runtime) (k v : String) : Runtime :=
  if keyMatches "apibaseurl" k then { cfg with APIBaseURL := v }
  else if keyMatches "deployid" k then { cfg with DeployID := v }
  else cfg

/-- Decoded bytes viewed as characters (ASCII inputs, where Go's UTF-8
bytes and code points coincide). -/
def bytesToChars (b : List Nat) : List Char := b.map Char.ofNat

/-- Go `json.Unmarshal` of the decoded bytes into a `Runtime`, starting
from the zero value as Go does. -/
def jsonUnmarshalRuntime (b : List Nat) : Option Runtime :=
  match parseJsonObj (bytesToChars b) with
  | some ms => some (ms.foldl (fun cfg kv => setRuntimeField cfg kv.1 kv.2) ⟨"", ""⟩)
  | none => none

/-- Go `json.Unmarshal` of the decoded bytes into a `Static`. -/
def jsonUnmarshalStatic (b : List Nat) : Option Static :=
  match parseJsonObj (bytesToChars b) with
  | some ms => some ⟨ms⟩
  | none => none

/-- The bytes of an ASCII string. -/
def strToBytes (s : String) : List Nat := s.toList.map Char.toNat

/-! ### Model of `net/url.Parse` validity -/

/-- ASCII control bytes, which `net/url.Parse` rejects anywhere in a URL
(Go `stringContainsCTLByte`). -/
def isCTLByte (c : Char) : Bool := c.toNat < 32 || c.toNat == 127

/-- Model of whether `url.Parse` succeeds on a string.  Captures the two
checks relevant here: Go rejects any URL containing an ASCII control byte,
and rejects a URL starting with `:` (missing protocol scheme).  Rarer
error paths of `url.Parse` (invalid percent-escape, invalid host or port,
colon in the first path segment) are not modelled; no claim depends on
them.  Note `url.Parse` accepts the empty string and relative URLs. -/
def urlParseOk (s : String) : Bool :=
  !(s.toList.any isCTLByte) &&
    !(match s.toList with
      | ':' :: _ => true
      | _ => false)

/-! ### The loaders of `parse.go` -/

/-- The stages at which `parse.go` calls `log.Fatalln`; the process
terminates and the listed message (plus the underlying error) is logged. -/
inductive Fatal where
  | noRuntimeConfig
  | decodeRuntimeConfig
  | parseRuntimeConfig
  | parseAPIBaseURL
  | noStaticConfig
  | decodeStaticConfig
  | parseStaticConfig
deriving DecidableEq, Repr

/-- The `log.Fatalln` message of each fatal stage, from `parse.go`. -/
def Fatal.message : Fatal → String
  | .noRuntimeConfig => "encore runtime: fatal error: no encore runtime config provided"
  | .decodeRuntimeConfig => "encore runtime: fatal error: could not decode encore runtime config:"
  | .parseRuntimeConfig => "encore runtime: fatal error: could not parse encore runtime config:"
  | .parseAPIBaseURL => "encore runtime: fatal error: could not parse api base url from encore runtime config:"
  | .noStaticConfig => "encore runtime: fatal error: no encore static config provided"
  | .decodeStaticConfig => "encore runtime: fatal error: could not decode encore static config:"
  | .parseStaticConfig => "encore runtime: fatal error: could not parse encore static config:"

/-- The base64 decoding chain of `ParseRuntime`: `StdEncoding` first,
`RawURLEncoding` only if that fails (parse.go lines 22-25). -/
def decodeRuntimeBlob (config : String) : Option (List Nat) :=
  match stdDecodeStr config with
  | some b => some b
  | none => rawUrlDecodeStr config

/-- The stages of `ParseRuntime` after the blob is decoded: JSON
unmarshal, `url.Parse` check of `APIBaseURL`, then the deploy-ID override
(parse.go lines 30-45). -/
def parseDecodedRuntime (bytes : List Nat) (deployID : String) : Except Fatal Runtime :=
  match jsonUnmarshalRuntime bytes with
  | none => .error .parseRuntimeConfig
  | some cfg =>
    if urlParseOk cfg.APIBaseURL then
      .ok (if deployID = "" then cfg else { cfg with DeployID := deployID })
    else .error .parseAPIBaseURL

/-- Go `ParseRuntime` (parse.go lines 11-46), with `log.Fatalln` modelled
as an `Except.error` carrying the fatal stage. -/
def ParseRuntime (config deployID : String) : Except Fatal Runtime :=
  if config = "" then .error .noRuntimeConfig
  else
    match decodeRuntimeBlob config with
    | none => .error .decodeRuntimeConfig
    | some bytes => parseDecodedRuntime bytes deployID

/-- Go `ParseStatic` (parse.go lines 49-62): standard base64 decoding
only, then JSON unmarshal. -/
def ParseStatic (config : String) : Except Fatal Static :=
  if config = "" then .error .noStaticConfig
  else
    match stdDecodeStr config with
    | none => .error .decodeStaticConfig
    | some bytes =>
      match jsonUnmarshalStatic bytes with
      | none => .error .parseStaticConfig
      | some cfg => .ok cfg

example :
    jsonUnmarshalRuntime
      (strToBytes "\x7b\"APIBaseURL\":\"https://api.example.com\",\"DeployID\":\"abc123\"\x7d") =
      some ⟨"https://api.example.com", "abc123"⟩ := by decide

example : jsonUnmarshalRuntime (strToBytes "\x7b\x7d") = some ⟨"", ""⟩ := by decide

example : ParseRuntime "e30=" "" = .ok ⟨"", ""⟩ := rfl

example :
    ParseRuntime (stdEncodeStr (strToBytes
      "\x7b\"APIBaseURL\":\"https://api.example.com\",\"DeployID\":\"abc123\"\x7d")) "xyz789" =
      .ok ⟨"https://api.example.com", "xyz789"⟩ := rfl

/-! ### Round-trip lemmas for the base64 model -/

/-- Each standard-alphabet digit decodes back to its index. -/
theorem stdAlphabet_index (i : Nat) (hi : i < 64) :
    b64Index stdAlphabet (stdAlphabet.getD i '?') = some i := by
  revert i hi
  decide

/-- Each URL-safe-alphabet digit decodes back to its index. -/
theorem urlAlphabet_index (i : Nat) (hi : i < 64) :
    b64Index urlAlphabet (urlAlphabet.getD i '?') = some i := by
  revert i hi
  decide

/-- No standard-alphabet digit is the padding character. -/
theorem stdAlphabet_ne_pad (i : Nat) (hi : i < 64) : stdAlphabet.getD i '?' ≠ '=' := by
  revert i hi
  decide

/-- No URL-safe-alphabet digit is the padding character. -/
theorem urlAlphabet_ne_pad (i : Nat) (hi : i < 64) : urlAlphabet.getD i '?' ≠ '=' := by
  revert i hi
  decide

/-- No standard-alphabet digit is a skipped newline character. -/
theorem stdAlphabet_not_skip (i : Nat) (hi : i < 64) :
    isB64Skip (stdAlphabet.getD i '?') = false := by
  revert i hi
  decide

/-- No URL-safe-alphabet digit is a skipped newline character. -/
theorem urlAlphabet_not_skip (i : Nat) (hi : i < 64) :
    isB64Skip (urlAlphabet.getD i '?') = false := by
  revert i hi
  decide

/-- Encoded output contains no character the decoder skips, so the
newline filter leaves it unchanged. -/
theorem filter_encodeB64 (pad : Bool) (alpha : List Char)
    (hs : ∀ i, i < 64 → isB64Skip (alpha.getD i '?') = false)
    (b : List Nat) (hb : ∀ x ∈ b, x < 256) :
    (encodeB64 pad alpha b).filter (fun c => !isB64Skip c) = encodeB64 pad alpha b := by
  have hpad : isB64Skip '=' = false := by decide
  match b with
  | [] => simp [encodeB64]
  | [x] =>
    have hx : x < 256 := hb x (by simp)
    have h0 := hs (x / 4) (by omega)
    have h1 := hs (x % 4 * 16) (by omega)
    cases pad <;>
      simp only [encodeB64, List.filter_cons, List.filter_nil, h0, h1, hpad,
        Bool.not_false, if_true, Bool.false_eq_true, if_false, Bool.true_eq_false,
        ite_true, ite_false]
  | [x, y] =>
    have hx : x < 256 := hb x (by simp)
    have hy : y < 256 := hb y (by simp)
    have h0 := hs (x / 4) (by omega)
    have h1 := hs (x % 4 * 16 + y / 16) (by omega)
    have h2 := hs (y % 16 * 4) (by omega)
    cases pad <;>
      simp only [encodeB64, List.filter_cons, List.filter_nil, h0, h1, h2, hpad,
        Bool.not_false, if_true, Bool.false_eq_true, if_false, Bool.true_eq_false,
        ite_true, ite_false]
  | x :: y :: z :: rest =>
    have hx : x < 256 := hb x (by simp)
    have hy : y < 256 := hb y (by simp)
    have hz : z < 256 := hb z (by simp)
    have h0 := hs (x / 4) (by omega)
    have h1 := hs (x % 4 * 16 + y / 16) (by omega)
    have h2 := hs (y % 16 * 4 + z / 64) (by omega)
    have h3 := hs (z % 64) (by omega)
    have ih := filter_encodeB64 pad alpha hs rest
      (fun a ha => hb a (by simp [ha]))
    simp only [encodeB64, List.filter_cons, h0, h1, h2, h3, ih,
      Bool.not_false, if_true, ite_true]
termination_by b.length

/-- Decoding inverts encoding, over any alphabet whose digits decode to
their index and avoid the padding character. -/
theorem decodeB64_encodeB64 (pad : Bool) (alpha : List Char)
    (hidx : ∀ i, i < 64 → b64Index alpha (alpha.getD i '?') = some i)
    (hne : ∀ i, i < 64 → alpha.getD i '?' ≠ '=')
    (b : List Nat) (hb : ∀ x ∈ b, x < 256) :
    decodeB64 pad alpha (encodeB64 pad alpha b) = some b := by
  match b with
  | [] => simp [encodeB64, decodeB64]
  | [x] =>
    have hx : x < 256 := hb x (by simp)
    have h0 := hidx (x / 4) (by omega)
    have h1 := hidx (x % 4 * 16) (by omega)
    have n0 : (alpha.getD (x / 4) '?' = '=') = False :=
      eq_false (hne (x / 4) (by omega))
    cases pad
    · simp only [encodeB64, Bool.false_eq_true, if_false, decodeB64, h0, h1]
      simp only [Option.some.injEq, List.cons.injEq, and_true]
      omega
    · simp only [encodeB64, if_true, decodeB64, h0, h1, n0, if_false,
        Bool.true_eq_false, and_true, and_self, if_pos, eq_self_iff_true, true_and]
      simp only [Option.some.injEq, List.cons.injEq, and_true]
      omega
  | [x, y] =>
    have hx : x < 256 := hb x (by simp)
    have hy : y < 256 := hb y (by simp)
    have h0 := hidx (x / 4) (by omega)
    have h1 := hidx (x % 4 * 16 + y / 16) (by omega)
    have h2 := hidx (y % 16 * 4) (by omega)
    have n2 : (alpha.getD (y % 16 * 4) '?' = '=') = False :=
      eq_false (hne (y % 16 * 4) (by omega))
    cases pad
    · simp only [encodeB64, Bool.false_eq_true, if_false, decodeB64, h0, h1, h2]
      simp only [Option.some.injEq, List.cons.injEq, and_true]
      omega
    · simp only [encodeB64, if_true, decodeB64, h0, h1, h2, n2, if_false,
        and_true, and_self, eq_self_iff_true, true_and]
      simp only [Option.some.injEq, List.cons.injEq, and_true]
      omega
  | x :: y :: z :: rest =>
    have hx : x < 256 := hb x (by simp)
    have hy : y < 256 := hb y (by simp)
    have hz : z < 256 := hb z (by simp)
    have h0 := hidx (x / 4) (by omega)
    have h1 := hidx (x % 4 * 16 + y / 16) (by omega)
    have h2 := hidx (y % 16 * 4 + z / 64) (by omega)
    have h3 := hidx (z % 64) (by omega)
    have n2 : (alpha.getD (y % 16 * 4 + z / 64) '?' = '=') = False :=
      eq_false (hne (y % 16 * 4 + z / 64) (by omega))
    have n3 : (alpha.getD (z % 64) '?' = '=') = False :=
      eq_false (hne (z % 64) (by omega))
    have ih := decodeB64_encodeB64 pad alpha hidx hne rest
      (fun a ha => hb a (by simp [ha]))
    simp only [encodeB64, decodeB64, h0, h1, h2, h3, n2, n3, if_false, ih,
      Option.map_some, Option.some.injEq, List.cons.injEq, eq_self_iff_true, and_true]
    simp only [Option.map_some', Option.some.injEq, List.cons.injEq,
      eq_self_iff_true, and_true]
    omega
termination_by b.length

/-- Go round trip: standard decode of a standard encode. -/
theorem stdDecode_stdEncode (b : List Nat) (hb : ∀ x ∈ b, x < 256) :
    stdDecodeStr (stdEncodeStr b) = some b := by
  have hlist : (stdEncodeStr b).toList = encodeB64 true stdAlphabet b := rfl
  rw [stdDecodeStr, hlist, filter_encodeB64 true stdAlphabet stdAlphabet_not_skip b hb]
  exact decodeB64_encodeB64 true stdAlphabet stdAlphabet_index stdAlphabet_ne_pad b hb

/-- Go round trip: URL-safe unpadded decode of a URL-safe unpadded
encode. -/
theorem rawUrlDecode_rawUrlEncode (b : List Nat) (hb : ∀ x ∈ b, x < 256) :
    rawUrlDecodeStr (rawUrlEncodeStr b) = some b := by
  have hlist : (rawUrlEncodeStr b).toList = encodeB64 false urlAlphabet b := rfl
  rw [rawUrlDecodeStr, hlist, filter_encodeB64 false urlAlphabet urlAlphabet_not_skip b hb]
  exact decodeB64_encodeB64 false urlAlphabet urlAlphabet_index urlAlphabet_ne_pad b hb

/-! ### Unfolding lemmas for the loaders -/

/-- When the standard decoding succeeds, the decoding chain returns its
bytes (the fallback is irrelevant). -/
theorem decodeRuntimeBlob_of_std (config : String) (b : List Nat)
    (h : stdDecodeStr config = some b) : decodeRuntimeBlob config = some b := by
  unfold decodeRuntimeBlob
  rw [h]

/-- When the standard decoding fails, the decoding chain is exactly the
URL-safe unpadded decoding. -/
theorem decodeRuntimeBlob_of_fallback (config : String)
    (h : stdDecodeStr config = none) :
    decodeRuntimeBlob config = rawUrlDecodeStr config := by
  unfold decodeRuntimeBlob
  rw [h]

/-- On a non-empty blob whose decoding chain succeeds, `ParseRuntime` is
the post-decode pipeline on the decoded bytes. -/
theorem ParseRuntime_decode_some (config d : String) (b : List Nat)
    (hc : config ≠ "") (h : decodeRuntimeBlob config = some b) :
    ParseRuntime config d = parseDecodedRuntime b d := by
  unfold ParseRuntime
  rw [if_neg hc, h]

/-- When JSON parsing and the URL check succeed, the post-decode pipeline
returns the config, with the deploy-ID override applied when non-empty. -/
theorem parseDecodedRuntime_ok (b : List Nat) (d : String) (cfg : Runtime)
    (hj : jsonUnmarshalRuntime b = some cfg)
    (hu : urlParseOk cfg.APIBaseURL = true) :
    parseDecodedRuntime b d =
      Except.ok (if d = "" then cfg else { cfg with DeployID := d }) := by
  simp [parseDecodedRuntime, hj, hu]

/-- Encoding a non-empty byte list yields a non-empty digit list. -/
theorem encodeB64_ne_nil (pad : Bool) (alpha : List Char) (b : List Nat)
    (hb : b ≠ []) : encodeB64 pad alpha b ≠ [] := by
  match b with
  | [] => exact absurd rfl hb
  | [x] => cases pad <;> simp [encodeB64]
  | [x, y] => cases pad <;> simp [encodeB64]
  | x :: y :: z :: rest => simp [encodeB64]

/-- The standard encoding of a non-empty byte list is a non-empty string. -/
theorem stdEncodeStr_ne_empty (b : List Nat) (hb : b ≠ []) :
    stdEncodeStr b ≠ "" := by
  intro h
  exact encodeB64_ne_nil true stdAlphabet b hb (congrArg String.data h)

/-- The URL-safe encoding of a non-empty byte list is a non-empty string. -/
theorem rawUrlEncodeStr_ne_empty (b : List Nat) (hb : b ≠ []) :
    rawUrlEncodeStr b ≠ "" := by
  intro h
  exact encodeB64_ne_nil false urlAlphabet b hb (congrArg String.data h)

/-- The empty byte list is not a valid JSON document. -/
theorem jsonUnmarshalRuntime_nil : jsonUnmarshalRuntime [] = none := rfl

/-! ### The claims -/

/-- C1: on a non-empty input, `ParseRuntime` uses the bytes of standard
base64 decoding whenever that succeeds (the fallback never affects the
result); when standard decoding fails it uses the bytes of URL-safe
unpadded decoding; only when both fail does it stop fatally at the decode
stage. -/
theorem ParseRuntime_base64_fallback_order (config d : String) (hc : config ≠ "") :
    (∀ b, stdDecodeStr config = some b →
      ParseRuntime config d = parseDecodedRuntime b d) ∧
    (stdDecodeStr config = none → ∀ b, rawUrlDecodeStr config = some b →
      ParseRuntime config d = parseDecodedRuntime b d) ∧
    (stdDecodeStr config = none → rawUrlDecodeStr config = none →
      ParseRuntime config d = Except.error Fatal.decodeRuntimeConfig) := by
  refine ⟨fun b hb => ?_, fun hstd b hraw => ?_, fun hstd hraw => ?_⟩
  · exact ParseRuntime_decode_some config d b hc (decodeRuntimeBlob_of_std config b hb)
  · exact ParseRuntime_decode_some config d b hc
      ((decodeRuntimeBlob_of_fallback config hstd).trans hraw)
  · unfold ParseRuntime
    rw [if_neg hc, decodeRuntimeBlob_of_fallback config hstd, hraw]

/-- C1 witness: the fallback path and the both-fail path at concrete
inputs (`"_w"` is URL-safe-only base64; `"!"` decodes under neither). -/
theorem ParseRuntime_base64_fallback_order_witness :
    ParseRuntime "_w" "x" = parseDecodedRuntime [255] "x" ∧
    ParseRuntime "!" "x" = Except.error Fatal.decodeRuntimeConfig :=
  ⟨(ParseRuntime_base64_fallback_order "_w" "x" (by decide)).2.1 (by decide)
      [255] (by decide),
    (ParseRuntime_base64_fallback_order "!" "x" (by decide)).2.2 (by decide)
      (by decide)⟩

/-- C2: on a blob that decodes and parses to `cfg` with a valid API base
URL, `ParseRuntime` returns a config whose `DeployID` is the override when
the override is non-empty and `cfg`'s own `DeployID` when it is empty. -/
theorem ParseRuntime_deployID_override (config d : String) (b : List Nat)
    (cfg : Runtime) (hc : config ≠ "")
    (hdec : decodeRuntimeBlob config = some b)
    (hjson : jsonUnmarshalRuntime b = some cfg)
    (hurl : urlParseOk cfg.APIBaseURL = true) :
    ∃ r, ParseRuntime config d = Except.ok r ∧
      (d ≠ "" → r.DeployID = d) ∧ (d = "" → r.DeployID = cfg.DeployID) := by
  refine ⟨if d = "" then cfg else { cfg with DeployID := d }, ?_, ?_, ?_⟩
  · rw [ParseRuntime_decode_some config d b hc hdec,
      parseDecodedRuntime_ok b d cfg hjson hurl]
  · intro hd
    rw [if_neg hd]
  · intro hd
    rw [if_pos hd]

/-- C2 witness: the override `"xyz789"` replaces the embedded
`"abc123"`; the empty override preserves it. -/
theorem ParseRuntime_deployID_override_witness :
    (∃ r, ParseRuntime "e30=" "xyz789" = Except.ok r ∧
      ("xyz789" ≠ "" → r.DeployID = "xyz789") ∧
      ("xyz789" = "" → r.DeployID = (⟨"", ""⟩ : Runtime).DeployID)) ∧
    (∃ r, ParseRuntime "e30=" "" = Except.ok r ∧
      ("" ≠ "" → r.DeployID = "") ∧
      ("" = "" → r.DeployID = (⟨"", ""⟩ : Runtime).DeployID)) :=
  ⟨ParseRuntime_deployID_override "e30=" "xyz789" [123, 125] ⟨"", ""⟩
      (by decide) (by decide) (by decide) (by decide),
    ParseRuntime_deployID_override "e30=" "" [123, 125] ⟨"", ""⟩
      (by decide) (by decide) (by decide) (by decide)⟩

/-- C3: the empty blob makes both loaders stop fatally, at their
missing-input stage with its descriptive message, never returning a
value. -/
theorem parse_empty_input_fatal (d : String) :
    ParseRuntime "" d = Except.error Fatal.noRuntimeConfig ∧
    ParseStatic "" = Except.error Fatal.noStaticConfig ∧
    Fatal.noRuntimeConfig.message =
      "encore runtime: fatal error: no encore runtime config provided" ∧
    Fatal.noStaticConfig.message =
      "encore runtime: fatal error: no encore static config provided" :=
  ⟨rfl, rfl, rfl, rfl⟩

/-- C10: both loaders are pure functions of their argument strings: equal
inputs give equal outcomes, fatal stage included. -/
theorem parse_deterministic (c₁ c₂ d₁ d₂ : String) (hc : c₁ = c₂) (hd : d₁ = d₂) :
    ParseRuntime c₁ d₁ = ParseRuntime c₂ d₂ ∧ ParseStatic c₁ = ParseStatic c₂ := by
  subst hc
  subst hd
  exact ⟨rfl, rfl⟩

/-- C10 witness: determinism instantiated at a concrete input. -/
theorem parse_deterministic_witness :
    ParseRuntime "e30=" "" = ParseRuntime "e30=" "" ∧
    ParseStatic "e30=" = ParseStatic "e30=" :=
  parse_deterministic "e30=" "e30=" "" "" rfl rfl

/-- C4 counterexample: the blob `"e30="` (standard base64 of an empty
JSON object) decodes, parses to the zero value, and passes the URL check
(Go's `url.Parse` accepts the empty string), so `ParseRuntime` returns a
config whose API base URL and deploy identifier are both empty. -/
theorem ParseRuntime_returns_empty_fields :
    ∃ r, ParseRuntime "e30=" "" = Except.ok r ∧
      r.APIBaseURL = "" ∧ r.DeployID = "" :=
  ⟨⟨"", ""⟩, rfl, rfl, rfl⟩

/-- C4 amended: every config `ParseRuntime` returns has an API base URL
accepted by `url.Parse`; neither field is guaranteed non-empty. -/
theorem ParseRuntime_ok_url_valid (config d : String) (r : Runtime)
    (h : ParseRuntime config d = Except.ok r) :
    urlParseOk r.APIBaseURL = true := by
  by_cases hc : config = ""
  · rw [ParseRuntime, if_pos hc] at h
    simp at h
  · rw [ParseRuntime, if_neg hc] at h
    cases hdec : decodeRuntimeBlob config with
    | none => rw [hdec] at h; simp at h
    | some b =>
      rw [hdec] at h
      simp only [parseDecodedRuntime] at h
      cases hj : jsonUnmarshalRuntime b with
      | none => rw [hj] at h; simp at h
      | some cfg =>
        rw [hj] at h
        simp only at h
        by_cases hu : urlParseOk cfg.APIBaseURL = true
        · rw [if_pos hu] at h
          have hr : (if d = "" then cfg else { cfg with DeployID := d }) = r :=
            Except.ok.inj h
          subst hr
          by_cases hd : d = ""
          · rw [if_pos hd]
            exact hu
          · rw [if_neg hd]
            exact hu
        · rw [if_neg hu] at h
          simp at h

/-- C4 amended witness: the amended invariant applied at the concrete
counterexample blob. -/
theorem ParseRuntime_ok_url_valid_witness :
    urlParseOk (⟨"", ""⟩ : Runtime).APIBaseURL = true :=
  ParseRuntime_ok_url_valid "e30=" "" ⟨"", ""⟩ rfl

/-- C5: a blob that decodes and parses but whose API base URL contains an
ASCII control byte (which `url.Parse` rejects) makes `ParseRuntime` stop
fatally at the URL-validation stage. -/
theorem ParseRuntime_invalid_url_fatal (config d : String) (b : List Nat)
    (cfg : Runtime) (hc : config ≠ "")
    (hdec : decodeRuntimeBlob config = some b)
    (hjson : jsonUnmarshalRuntime b = some cfg)
    (hctl : cfg.APIBaseURL.toList.any isCTLByte = true) :
    ParseRuntime config d = Except.error Fatal.parseAPIBaseURL := by
  have hu : urlParseOk cfg.APIBaseURL = false := by
    simp only [urlParseOk, hctl, Bool.not_true, Bool.false_and]
  rw [ParseRuntime_decode_some config d b hc hdec]
  simp [parseDecodedRuntime, hjson, hu]

/-- C5 witness: a blob whose JSON carries a tab (escaped `\t`) inside the
API base URL; the control byte fails the URL check fatally. -/
theorem ParseRuntime_invalid_url_fatal_witness :
    ParseRuntime (stdEncodeStr (strToBytes "\x7b\"APIBaseURL\":\"a\\tb\"\x7d")) "" =
      Except.error Fatal.parseAPIBaseURL :=
  ParseRuntime_invalid_url_fatal
    (stdEncodeStr (strToBytes "\x7b\"APIBaseURL\":\"a\\tb\"\x7d")) ""
    (strToBytes "\x7b\"APIBaseURL\":\"a\\tb\"\x7d") ⟨"a\tb", ""⟩
    (by decide) (by decide) (by decide) (by decide)

/-- C7: `ParseStatic` decodes with standard base64 only: an input that
only URL-safe unpadded decoding accepts is a fatal decode error for it. -/
theorem ParseStatic_no_fallback (s : String) (b : List Nat) (hs : s ≠ "")
    (hstd : stdDecodeStr s = none) (hraw : rawUrlDecodeStr s = some b) :
    ParseStatic s = Except.error Fatal.decodeStaticConfig := by
  rw [ParseStatic, if_neg hs, hstd]

/-- C7 witness: `"_w"` is URL-safe-only base64 (it decodes to the byte
255), yet `ParseStatic` fails fatally at the decode stage on it. -/
theorem ParseStatic_no_fallback_witness :
    ParseStatic "_w" = Except.error Fatal.decodeStaticConfig :=
  ParseStatic_no_fallback "_w" [255] (by decide) (by decide) (by decide)

/-- C9: a non-empty override changes only the deploy identifier: the
result with override `d` is exactly the empty-override result with its
`DeployID` replaced, its `APIBaseURL` untouched. -/
theorem ParseRuntime_override_frame (config d : String) (b : List Nat)
    (cfg : Runtime) (hc : config ≠ "") (hd : d ≠ "")
    (hdec : decodeRuntimeBlob config = some b)
    (hjson : jsonUnmarshalRuntime b = some cfg)
    (hurl : urlParseOk cfg.APIBaseURL = true) :
    ParseRuntime config d = Except.ok { cfg with DeployID := d } ∧
    ParseRuntime config "" = Except.ok cfg ∧
    ({ cfg with DeployID := d } : Runtime).APIBaseURL = cfg.APIBaseURL := by
  refine ⟨?_, ?_, rfl⟩
  · rw [ParseRuntime_decode_some config d b hc hdec,
      parseDecodedRuntime_ok b d cfg hjson hurl, if_neg hd]
  · rw [ParseRuntime_decode_some config "" b hc hdec,
      parseDecodedRuntime_ok b "" cfg hjson hurl, if_pos rfl]

/-- C9 witness: the frame property at a concrete blob carrying both
fields. -/
theorem ParseRuntime_override_frame_witness :
    ParseRuntime (stdEncodeStr (strToBytes
        "\x7b\"APIBaseURL\":\"https://api.example.com\",\"DeployID\":\"abc123\"\x7d"))
      "xyz789" = Except.ok ⟨"https://api.example.com", "xyz789"⟩ ∧
    ParseRuntime (stdEncodeStr (strToBytes
        "\x7b\"APIBaseURL\":\"https://api.example.com\",\"DeployID\":\"abc123\"\x7d"))
      "" = Except.ok ⟨"https://api.example.com", "abc123"⟩ ∧
    (⟨"https://api.example.com", "xyz789"⟩ : Runtime).APIBaseURL =
      (⟨"https://api.example.com", "abc123"⟩ : Runtime).APIBaseURL :=
  ParseRuntime_override_frame
    (stdEncodeStr (strToBytes
      "\x7b\"APIBaseURL\":\"https://api.example.com\",\"DeployID\":\"abc123\"\x7d"))
    "xyz789"
    (strToBytes "\x7b\"APIBaseURL\":\"https://api.example.com\",\"DeployID\":\"abc123\"\x7d")
    ⟨"https://api.example.com", "abc123"⟩
    (by decide) (by decide) (by decide) (by decide) (by decide)

/-- C6: a payload that parses as a runtime config, encoded with URL-safe
unpadded base64 into a string standard decoding rejects, still loads via
the fallback path, with the same result as the standard encoding of the
same payload. -/
theorem ParseRuntime_rawurl_fallback_equiv (b : List Nat) (d : String)
    (cfg : Runtime) (hb : ∀ x ∈ b, x < 256)
    (hstd : stdDecodeStr (rawUrlEncodeStr b) = none)
    (hjson : jsonUnmarshalRuntime b = some cfg)
    (hurl : urlParseOk cfg.APIBaseURL = true) :
    ParseRuntime (rawUrlEncodeStr b) d = ParseRuntime (stdEncodeStr b) d ∧
    ParseRuntime (rawUrlEncodeStr b) d =
      Except.ok (if d = "" then cfg else { cfg with DeployID := d }) := by
  have hne : b ≠ [] := by
    intro h
    rw [h, jsonUnmarshalRuntime_nil] at hjson
    cases hjson
  have hdec1 : decodeRuntimeBlob (rawUrlEncodeStr b) = some b :=
    (decodeRuntimeBlob_of_fallback _ hstd).trans (rawUrlDecode_rawUrlEncode b hb)
  have hdec2 : decodeRuntimeBlob (stdEncodeStr b) = some b :=
    decodeRuntimeBlob_of_std _ b (stdDecode_stdEncode b hb)
  have h1 := ParseRuntime_decode_some (rawUrlEncodeStr b) d b
    (rawUrlEncodeStr_ne_empty b hne) hdec1
  have h2 := ParseRuntime_decode_some (stdEncodeStr b) d b
    (stdEncodeStr_ne_empty b hne) hdec2
  exact ⟨h1.trans h2.symm,
    h1.trans (parseDecodedRuntime_ok b d cfg hjson hurl)⟩

/-- C6 witness: a scenario payload whose URL-safe unpadded encoding has
length 2 mod 4, so standard decoding rejects it and the fallback path is
exercised (the spec's own 60-byte scenario payload encodes identically
under both alphabets, so a 61-byte variant is used). -/
theorem ParseRuntime_rawurl_fallback_equiv_witness :
    ParseRuntime (rawUrlEncodeStr (strToBytes
        "\x7b\"APIBaseURL\":\"https://api.example.com\",\"DeployID\":\"abc1234\"\x7d")) "" =
      ParseRuntime (stdEncodeStr (strToBytes
        "\x7b\"APIBaseURL\":\"https://api.example.com\",\"DeployID\":\"abc1234\"\x7d")) "" ∧
    ParseRuntime (rawUrlEncodeStr (strToBytes
        "\x7b\"APIBaseURL\":\"https://api.example.com\",\"DeployID\":\"abc1234\"\x7d")) "" =
      Except.ok (if ("" : String) = "" then ⟨"https://api.example.com", "abc1234"⟩
        else ⟨"https://api.example.com", ""⟩) :=
  ParseRuntime_rawurl_fallback_equiv
    (strToBytes "\x7b\"APIBaseURL\":\"https://api.example.com\",\"DeployID\":\"abc1234\"\x7d")
    "" ⟨"https://api.example.com", "abc1234"⟩
    (by decide) (by decide) (by decide) (by decide)

/-- C8: a payload that parses as a config round-trips: each loader, run on
the standard base64 encoding of the payload, returns exactly the parsed
value; in particular the spec's scenario blob yields API base URL
`https://api.example.com` and deploy ID `abc123`. -/
theorem ParseRuntime_roundtrip (b : List Nat) (cfg : Runtime) (scfg : Static)
    (hb : ∀ x ∈ b, x < 256)
    (hjson : jsonUnmarshalRuntime b = some cfg)
    (hurl : urlParseOk cfg.APIBaseURL = true)
    (hjs : jsonUnmarshalStatic b = some scfg) :
    ParseRuntime (stdEncodeStr b) "" = Except.ok cfg ∧
    ParseStatic (stdEncodeStr b) = Except.ok scfg ∧
    ParseRuntime (stdEncodeStr (strToBytes
      "\x7b\"APIBaseURL\":\"https://api.example.com\",\"DeployID\":\"abc123\"\x7d")) "" =
      Except.ok ⟨"https://api.example.com", "abc123"⟩ := by
  have hne : b ≠ [] := by
    intro h
    rw [h, jsonUnmarshalRuntime_nil] at hjson
    cases hjson
  have hstd := stdDecode_stdEncode b hb
  refine ⟨?_, ?_, rfl⟩
  · rw [ParseRuntime_decode_some (stdEncodeStr b) "" b
        (stdEncodeStr_ne_empty b hne) (decodeRuntimeBlob_of_std _ b hstd),
      parseDecodedRuntime_ok b "" cfg hjson hurl, if_pos rfl]
  · rw [ParseStatic, if_neg (stdEncodeStr_ne_empty b hne), hstd]
    simp [hjs]

/-- C8 witness: the round trip applied to the spec's scenario payload,
for both loaders. -/
theorem ParseRuntime_roundtrip_witness :
    ParseRuntime (stdEncodeStr (strToBytes
      "\x7b\"APIBaseURL\":\"https://api.example.com\",\"DeployID\":\"abc123\"\x7d")) "" =
      Except.ok ⟨"https://api.example.com", "abc123"⟩ ∧
    ParseStatic (stdEncodeStr (strToBytes
      "\x7b\"APIBaseURL\":\"https://api.example.com\",\"DeployID\":\"abc123\"\x7d")) =
      Except.ok ⟨[("APIBaseURL", "https://api.example.com"),
        ("DeployID", "abc123")]⟩ :=
  ⟨(ParseRuntime_roundtrip
      (strToBytes "\x7b\"APIBaseURL\":\"https://api.example.com\",\"DeployID\":\"abc123\"\x7d")
      ⟨"https://api.example.com", "abc123"⟩
      ⟨[("APIBaseURL", "https://api.example.com"), ("DeployID", "abc123")]⟩
      (by decide) (by decide) (by decide) (by decide)).1,
    (ParseRuntime_roundtrip
      (strToBytes "\x7b\"APIBaseURL\":\"https://api.example.com\",\"DeployID\":\"abc123\"\x7d")
      ⟨"https://api.example.com", "abc123"⟩
      ⟨[("APIBaseURL", "https://api.example.com"), ("DeployID", "abc123")]⟩
      (by decide) (by decide) (by decide) (by decide)).2.1⟩

end EncoreConfig
